import Mathlib

/-!
Shallow embedding of the core processing pipeline of the arxiv-mcp repository
(`src/arxiv_mcp`): identifier validation, rate-limited download, archive
extraction, main-file resolution, LaTeX-to-text extraction, two-pass
compilation, PDF reading, and the per-item / batch orchestration.

Python strings are modelled as `List Char` (ASCII fragment of Unicode: the
`\w`, `\d`, `\s` regex classes and `str.lower()` are modelled on ASCII, which
covers every identifier and file name the pipeline manipulates).  Byte strings
are `List Nat` with each entry `< 256`.  Effectful calls (network, subprocess,
PyPDF2) are modelled by explicit outcome values passed to the functions that
perform them.
-/

/-- ASCII decimal digit, modelling the regex class `\d`. -/
def isDigitB (c : Char) : Bool := '0' ≤ c && c ≤ '9'

/-- ASCII word character, modelling the regex class `\w`. -/
def isWordB (c : Char) : Bool := c.isAlphanum || c = '_'

/-- ASCII letter, modelling the regex class `[a-zA-Z]`. -/
def isAlphaB (c : Char) : Bool := ('a' ≤ c && c ≤ 'z') || ('A' ≤ c && c ≤ 'Z')

/-- Whitespace as recognised by Python's `str.strip()` and the regex class
`\s` (ASCII part): space, tab, newline, carriage return, vertical tab,
form feed. -/
def isSpaceB (c : Char) : Bool :=
  c = ' ' || c = '\t' || c = '\n' || c = '\x0d' || c = '\x0b' || c = '\x0c'

/-- Python `str.strip()`: drop leading and trailing whitespace. -/
def pyStrip (cs : List Char) : List Char :=
  ((cs.dropWhile isSpaceB).reverse.dropWhile isSpaceB).reverse

/-- Python `bytes.decode("utf-8", errors="ignore")`: decode UTF-8, silently
dropping invalid sequences (maximal-subpart skipping). -/
def utf8Ignore : List Nat → List Char
  | [] => []
  | b :: bs =>
    if b < 0x80 then Char.ofNat b :: utf8Ignore bs
    else if b < 0xC2 then
      -- stray continuation byte or overlong two-byte start: dropped
      utf8Ignore bs
    else if b < 0xE0 then
      -- two-byte sequence C2..DF
      match bs with
      | [] => []
      | b2 :: bs2 =>
        if 0x80 ≤ b2 && b2 < 0xC0 then
          Char.ofNat ((b - 0xC0) * 64 + (b2 - 0x80)) :: utf8Ignore bs2
        else utf8Ignore (b2 :: bs2)
    else if b < 0xF0 then
      -- three-byte sequence E0..EF, with the E0/ED second-byte restrictions
      match bs with
      | [] => []
      | b2 :: bs2 =>
        if (if b = 0xE0 then 0xA0 ≤ b2 && b2 < 0xC0
            else if b = 0xED then 0x80 ≤ b2 && b2 < 0xA0
            else 0x80 ≤ b2 && b2 < 0xC0) then
          match bs2 with
          | [] => []
          | b3 :: bs3 =>
            if 0x80 ≤ b3 && b3 < 0xC0 then
              Char.ofNat ((b - 0xE0) * 4096 + (b2 - 0x80) * 64 + (b3 - 0x80))
                :: utf8Ignore bs3
            else utf8Ignore (b3 :: bs3)
        else utf8Ignore (b2 :: bs2)
    else if b < 0xF5 then
      -- four-byte sequence F0..F4, with the F0/F4 second-byte restrictions
      match bs with
      | [] => []
      | b2 :: bs2 =>
        if (if b = 0xF0 then 0x90 ≤ b2 && b2 < 0xC0
            else if b = 0xF4 then 0x80 ≤ b2 && b2 < 0x90
            else 0x80 ≤ b2 && b2 < 0xC0) then
          match bs2 with
          | [] => []
          | b3 :: bs3 =>
            if 0x80 ≤ b3 && b3 < 0xC0 then
              match bs3 with
              | [] => []
              | b4 :: bs4 =>
                if 0x80 ≤ b4 && b4 < 0xC0 then
                  Char.ofNat ((b - 0xF0) * 262144 + (b2 - 0x80) * 4096 +
                      (b3 - 0x80) * 64 + (b4 - 0x80)) :: utf8Ignore bs4
                else utf8Ignore (b4 :: bs4)
            else utf8Ignore (b3 :: bs3)
        else utf8Ignore (b2 :: bs2)
    else
      -- F5..FF can start no valid sequence: dropped
      utf8Ignore bs

/-- `bytes.decode("utf-8", errors="ignore")` producing a `String`. -/
def decodeIgnore (bs : List Nat) : String := String.mk (utf8Ignore bs)

/-! ## `ArxivValidator.validate_arxiv_id` (`utils/validation.py`)

The validator strips the input and matches it in full against
`^(\d{4}\.\d{4,5}(v\d+)?|\w+[-.]?\w+/\d{7}(v\d+)?)$` (via `re.match`; after
`strip()` the string has no trailing newline, so the trailing `$` means end of
string).  The matcher below transliterates that fixed pattern. -/

/-- The optional `(v\d+)?` version suffix followed by end of input. -/
def vSuffix : List Char → Bool
  | [] => true
  | c :: ds => c = 'v' && !ds.isEmpty && ds.all isDigitB

/-- `\d{4}\.\d{4,5}(v\d+)?$`: four digits, a dot, a maximal digit run of
length 4 or 5 (a longer run cannot match: the leftover digit fits neither
`(v\d+)?` nor the anchor), then the version suffix. -/
def newStyleMatch (cs : List Char) : Bool :=
  let y := cs.take 4
  y.length = 4 && y.all isDigitB &&
    match cs.drop 4 with
    | [] => false
    | c :: rest =>
      c = '.' &&
        (let n := rest.takeWhile isDigitB
         (n.length = 4 || n.length = 5) && vSuffix (rest.dropWhile isDigitB))

/-- `\w+[-.]?\w+` consuming the whole input: either all word characters with
length at least two, or a maximal word run, one `-` or `.`, and a nonempty
word run (shorter choices for the first `\w+` leave a word character for
`[-.]?` and cannot succeed). -/
def subjectMatch (cs : List Char) : Bool :=
  let w1 := cs.takeWhile isWordB
  !w1.isEmpty &&
    match cs.dropWhile isWordB with
    | [] => decide (2 ≤ cs.length)
    | sep :: rest2 => (sep = '-' || sep = '.') && !rest2.isEmpty && rest2.all isWordB

/-- `\d{7}(v\d+)?$`: exactly seven digits then the version suffix. -/
def sevenDigitsV (cs : List Char) : Bool :=
  (cs.take 7).length = 7 && (cs.take 7).all isDigitB && vSuffix (cs.drop 7)

/-- Split at the first `/`, returning the part before and after it. -/
def breakAtSlash : List Char → Option (List Char × List Char)
  | [] => none
  | c :: rest =>
    if c = '/' then some ([], rest)
    else (breakAtSlash rest).map (fun p => (c :: p.1, p.2))

/-- `\w+[-.]?\w+/\d{7}(v\d+)?$`.  The subject part contains no `/`, so the
pattern's `/` is the first `/` of the input. -/
def oldStyleMatch (cs : List Char) : Bool :=
  match breakAtSlash cs with
  | none => false
  | some (sub, rest) => subjectMatch sub && sevenDigitsV rest

/-- `ArxivValidator.validate_arxiv_id`: strip, then match the alternation. -/
def validate_arxiv_id (s : String) : Bool :=
  let cs := pyStrip s.toList
  newStyleMatch cs || oldStyleMatch cs

example : validate_arxiv_id "2301.00001" = true := by decide
example : validate_arxiv_id "2301.00001v2" = true := by decide
example : validate_arxiv_id "math.GT/0601001" = true := by decide
example : validate_arxiv_id "math-ph/0601001v1" = true := by decide
example : validate_arxiv_id "invalid" = false := by decide
example : validate_arxiv_id "" = false := by decide
example : validate_arxiv_id "12345" = false := by decide
example : validate_arxiv_id "2301" = false := by decide
example : validate_arxiv_id " 2301.00001 " = true := by decide
example : validate_arxiv_id "a-b-c/1234567" = false := by decide
example : validate_arxiv_id "1234.123456" = false := by decide

/-! ## `LaTeXProcessor.extract_archive` (`processors/__init__.py`)

An archive blob is modelled by its parse: a zip member list, a tar member
list, or neither (`invalid` carries the tar error message).  Python's `dict`
is modelled as an association list with insert-or-update semantics
(`dictInsert`); `zf.read(name)` returns the bytes of the last zip member
carrying that name (`zipRead`). -/

/-- Name-to-bytes mapping produced by extraction (a Python `dict`). -/
abbrev FileSet := List (String × List Nat)

/-- `d[k] = v` on a Python dict: update in place or append a new key. -/
def dictInsert : FileSet → String → List Nat → FileSet
  | [], k, v => [(k, v)]
  | (k0, v0) :: rest, k, v =>
    if k0 = k then (k0, v) :: rest else (k0, v0) :: dictInsert rest k v

/-- `d[k]` lookup on a Python dict (keys are unique, so first hit). -/
def dictGet (files : FileSet) (k : String) : List Nat :=
  match files.find? (fun e => e.1 = k) with
  | some e => e.2
  | none => []

/-- `s.endswith(pat)` on Python strings. -/
def strEndsWith (pat s : String) : Bool := pat.toList.isSuffixOf s.toList

structure ZipEntry where
  name : String
  data : List Nat

inductive TarKind
  | regular
  | directory
  | other
deriving DecidableEq

structure TarMember where
  name : String
  kind : TarKind
  data : List Nat

/-- A downloaded byte blob, represented by how the archive readers parse it. -/
inductive Blob
  | zip (entries : List ZipEntry)
  | tar (members : List TarMember)
  | invalid (msg : String)

/-- `zf.read(name)`: bytes of the last member with that name. -/
def zipRead (entries : List ZipEntry) (name : String) : List Nat :=
  match entries.reverse.find? (fun e => e.name = name) with
  | some e => e.data
  | none => []

/-- `LaTeXProcessor.extract_archive`: try zip, then tar; compare the full
member count (directories included) against `max_files`; keep zip members not
ending in `/` and tar regular-file members.  No member-path check is
performed. -/
def extract_archive (content : Blob) (max_files : Nat) : Except String FileSet :=
  match content with
  | .zip entries =>
    if entries.length > max_files then
      .error ("Archive contains too many files: " ++ toString entries.length
        ++ " > " ++ toString max_files)
    else
      .ok (entries.foldl
        (fun files e =>
          if strEndsWith "/" e.name then files
          else dictInsert files e.name (zipRead entries e.name)) [])
  | .tar members =>
    if members.length > max_files then
      .error ("Archive contains too many files: " ++ toString members.length
        ++ " > " ++ toString max_files)
    else
      .ok (members.foldl
        (fun files m =>
          if m.kind = .regular then dictInsert files m.name m.data else files) [])
  | .invalid msg => .error ("Failed to extract archive: " ++ msg)

example :
    extract_archive (.zip [⟨"../evil.tex", [42]⟩]) 1000 =
      .ok [("../evil.tex", [42])] := rfl
example :
    (extract_archive (.zip [⟨"d/", []⟩, ⟨"a", [1]⟩, ⟨"b", [2]⟩]) 2).isOk = false := by
  decide
example :
    extract_archive (.tar [⟨"a", .regular, [1]⟩, ⟨"d", .directory, []⟩]) 5 =
      .ok [("a", [1])] := rfl

/-! ## `LaTeXProcessor.find_main_tex_file` (`processors/__init__.py`) -/

/-- Lowercasing a Python string (ASCII model of `re.IGNORECASE`). -/
def lowerStr (s : String) : String := String.mk (s.toList.map Char.toLower)

/-- Whether `pat` occurs as a contiguous substring. -/
def listHasInfix (pat : List Char) : List Char → Bool
  | [] => pat.isEmpty
  | c :: rest => pat.isPrefixOf (c :: rest) || listHasInfix pat rest

/-- The ordered main-file name patterns (`main_patterns` in the source); each
is applied with `re.search(..., re.IGNORECASE)`, i.e. a case-insensitive check
that the file name ends with the pattern. -/
def mainPatterns : List String :=
  ["main.tex", "paper.tex", "manuscript.tex", "article.tex"]

/-- `LaTeXProcessor.find_main_tex_file`: among the `.tex` names, first the
pattern-order suffix matches, then the first file whose decoded content
contains `\documentclass`, then the first `.tex` file, else `None`. -/
def find_main_tex_file (files : FileSet) : Option String :=
  let texFiles := (files.map Prod.fst).filter (fun n => strEndsWith ".tex" n)
  if texFiles.isEmpty then none
  else
    match mainPatterns.findSome?
        (fun p => texFiles.find? (fun f => strEndsWith p (lowerStr f))) with
    | some f => some f
    | none =>
      match texFiles.find? (fun f =>
          listHasInfix "\\documentclass".toList (utf8Ignore (dictGet files f))) with
      | some f => some f
      | none => texFiles.head?

example : find_main_tex_file [] = none := by decide
example : find_main_tex_file [("MAIN.tex", [])] = some "MAIN.tex" := by decide
example : find_main_tex_file [("Main.TEX", [])] = none := by decide
example :
    find_main_tex_file [("a.tex", []), ("sub/paper.tex", [])] =
      some "sub/paper.tex" := by decide
example :
    find_main_tex_file
      [("domain.tex", [120]),
       ("other.tex", "\\documentclass".toList.map Char.toNat)] =
      some "domain.tex" := by decide
example :
    find_main_tex_file
      [("a.tex", [120]), ("b.tex", "\\documentclass".toList.map Char.toNat)] =
      some "b.tex" := by decide
example : find_main_tex_file [("a.txt", []), ("z.tex", [120])] = some "z.tex" := by
  decide

/-! ## `LaTeXProcessor.extract_text_from_tex` (`processors/__init__.py`)

Each `re.sub` call is one left-to-right, non-overlapping pass: at every
position the engine tries the (fixed) pattern, emits the replacement on a
match and resumes after the matched text, otherwise copies one character.
`runSub` implements that scheme; the fuel starts at the input length, which
suffices because every step consumes at least one character (the zero-fuel
fallback is unreachable). -/

/-- One `re.sub` pass driven by a matcher `step` that, on a match at the
current position, returns the replacement text and the input remaining after
the matched span. -/
def runSub (step : List Char → Option (List Char × List Char)) :
    Nat → List Char → List Char
  | _, [] => []
  | 0, l => l
  | fuel + 1, c :: rest =>
    match step (c :: rest) with
    | some (e, r) => e ++ runSub step fuel r
    | none => c :: runSub step fuel rest

/-- `%.*$` (MULTILINE) → empty: from `%` up to (excluding) the line break. -/
def commentStep : List Char → Option (List Char × List Char)
  | '%' :: rest => some ([], rest.dropWhile (fun c => c ≠ '\n'))
  | _ => none

/-- `\\[a-zA-Z]+\{([^}]*)\}` → the brace content. -/
def cmdBraceStep : List Char → Option (List Char × List Char)
  | '\\' :: rest =>
    if (rest.takeWhile isAlphaB).isEmpty then none
    else
      match rest.dropWhile isAlphaB with
      | '{' :: rest2 =>
        match rest2.dropWhile (fun c => c ≠ '}') with
        | '}' :: rest3 => some (rest2.takeWhile (fun c => c ≠ '}'), rest3)
        | _ => none
      | _ => none
  | _ => none

/-- `\\[a-zA-Z]+\[[^\]]*\]\{([^}]*)\}` → the brace content. -/
def cmdOptBraceStep : List Char → Option (List Char × List Char)
  | '\\' :: rest =>
    if (rest.takeWhile isAlphaB).isEmpty then none
    else
      match rest.dropWhile isAlphaB with
      | '[' :: rest2 =>
        match rest2.dropWhile (fun c => c ≠ ']') with
        | ']' :: '{' :: rest4 =>
          match rest4.dropWhile (fun c => c ≠ '}') with
          | '}' :: rest5 => some (rest4.takeWhile (fun c => c ≠ '}'), rest5)
          | _ => none
        | _ => none
      | _ => none
  | _ => none

/-- `\$[^$]*\$` → `" [MATH] "`. -/
def mathStep : List Char → Option (List Char × List Char)
  | '$' :: rest =>
    match rest.dropWhile (fun c => c ≠ '$') with
    | '$' :: rest2 => some (" [MATH] ".toList, rest2)
    | _ => none
  | _ => none

/-- Split around the first occurrence of `pat`. -/
def splitFirstAt (pat : List Char) : List Char → Option (List Char × List Char)
  | [] => if pat.isEmpty then some ([], []) else none
  | c :: rest =>
    if pat.isPrefixOf (c :: rest) then some ([], (c :: rest).drop pat.length)
    else (splitFirstAt pat rest).map (fun p => (c :: p.1, p.2))

/-- `\\begin\{equation\}.*?\\end\{equation\}` (DOTALL, lazy) →
`" [EQUATION] "`. -/
def equationStep (l : List Char) : Option (List Char × List Char) :=
  let openPat := "\\begin{equation}".toList
  if openPat.isPrefixOf l then
    match splitFirstAt "\\end{equation}".toList (l.drop openPat.length) with
    | some (_, after) => some (" [EQUATION] ".toList, after)
    | none => none
  else none

/-- `\\begin\{[^}]*\}` → empty (or `\\end\{[^}]*\}` with `kw = "end"`). -/
def envStep (kw : List Char) (l : List Char) : Option (List Char × List Char) :=
  match l with
  | '\\' :: rest =>
    if kw.isPrefixOf rest then
      match rest.drop kw.length with
      | '{' :: rest2 =>
        match rest2.dropWhile (fun c => c ≠ '}') with
        | '}' :: rest3 => some ([], rest3)
        | _ => none
      | _ => none
    else none
  | _ => none

/-- `\s+` → one space. -/
def wsStep : List Char → Option (List Char × List Char)
  | c :: rest =>
    if isSpaceB c then some ([' '], rest.dropWhile isSpaceB) else none
  | [] => none

/-- `LaTeXProcessor.extract_text_from_tex`: the eight `re.sub` passes of the
source in order, then `strip()`. -/
def extract_text_from_tex (tex_content : String) : String :=
  let p0 := tex_content.toList
  let p1 := runSub commentStep p0.length p0
  let p2 := runSub cmdBraceStep p1.length p1
  let p3 := runSub cmdOptBraceStep p2.length p2
  let p4 := runSub mathStep p3.length p3
  let p5 := runSub equationStep p4.length p4
  let p6 := runSub (envStep "begin".toList) p5.length p5
  let p7 := runSub (envStep "end".toList) p6.length p6
  let p8 := runSub wsStep p7.length p7
  String.mk (pyStrip p8)

example : extract_text_from_tex "" = "" := by decide
example :
    extract_text_from_tex
      "\\documentclass{article}\\begin{document}Hello\\end{document}" =
      "articledocumentHellodocument" := by decide
example : extract_text_from_tex "a $x+y$ b" = "a [MATH] b" := by decide
example : extract_text_from_tex "keep % gone\nnext" = "keep next" := by decide
example : extract_text_from_tex "\\emph{word} rest" = "word rest" := by decide
example : extract_text_from_tex "\\cite[p.~3]{k} x" = "k x" := by decide
example : extract_text_from_tex "%all comment" = "" := by decide

/-! ## `AsyncArxivDownloader.download` (`clients/__init__.py`)

The HTTP interaction is modelled by its outcome: a response with a status and
a body, a connection failure, or an elapsed timeout.  In the source a non-200
status raises `ArxivMCPError` inside the `try` block, which the blanket
`except Exception` immediately re-wraps, so its message is nested. -/

inductive HttpOutcome
  | response (status : Nat) (body : Blob)
  | connectionError (msg : String)
  | timedOut

/-- `AsyncArxivDownloader.download`: return the body iff the status is
exactly 200; otherwise raise (modelled as `Except.error`). -/
def download (arxiv_id : String) (outcome : HttpOutcome) : Except String Blob :=
  match outcome with
  | .response status body =>
    if status = 200 then .ok body
    else
      .error ("Download failed for " ++ arxiv_id ++ ": Failed to download "
        ++ arxiv_id ++ ": HTTP " ++ toString status)
  | .connectionError msg =>
    .error ("Download failed for " ++ arxiv_id ++ ": " ++ msg)
  | .timedOut =>
    .error ("Download failed for " ++ arxiv_id ++ ": TimeoutError")

/-! ## `LaTeXProcessor.compile_latex` (`processors/__init__.py`)

Each `subprocess.run` of `pdflatex` is modelled by its outcome: completion
with an exit code and stderr text, a `TimeoutExpired`, or a
`FileNotFoundError` (binary missing).  The filesystem state after the runs is
modelled by `artifact`: the bytes of `<main stem>.pdf` in the temp directory
if that file exists.  The function also counts how many invocations were
attempted. -/

inductive RunOutcome
  | completed (exitCode : Int) (stderr : String)
  | timedOut
  | binaryMissing
deriving DecidableEq

structure CompileEnv where
  run1 : RunOutcome
  run2 : RunOutcome
  artifact : Option (List Nat)

/-- `LaTeXProcessor.compile_latex`: run `pdflatex` twice; a non-zero exit
fails only on the second run (`i == 1`); afterwards the `<stem>.pdf` artifact
must exist.  Timeout and missing binary abort immediately.  Returns the
result together with the number of attempted invocations. -/
def compile_latex (compilation_timeout : Nat) (_files : FileSet)
    (_main_file : String) (env : CompileEnv) :
    Except String (List Nat) × Nat :=
  match env.run1 with
  | .timedOut =>
    (.error ("LaTeX compilation timed out after "
      ++ toString compilation_timeout ++ "s"), 1)
  | .binaryMissing =>
    (.error "pdflatex not found. Please install a LaTeX distribution.", 1)
  | .completed _ _ =>
    -- first run's exit code is ignored
    match env.run2 with
    | .timedOut =>
      (.error ("LaTeX compilation timed out after "
        ++ toString compilation_timeout ++ "s"), 2)
    | .binaryMissing =>
      (.error "pdflatex not found. Please install a LaTeX distribution.", 2)
    | .completed code2 stderr2 =>
      if code2 ≠ 0 then
        (.error ("LaTeX compilation failed: " ++ stderr2), 2)
      else
        match env.artifact with
        | some pdf => (.ok pdf, 2)
        | none => (.error "PDF file was not generated", 2)

/-! ## `PDFProcessor` (`processors/__init__.py`)

The PyPDF2 interaction is modelled by its outcome: the library may be absent
(`ImportError`), reading may raise, or it yields the parsed value. -/

inductive PdfReadOutcome (α : Type)
  | libAbsent
  | failed (msg : String)
  | ok (value : α)

/-- Metadata values (`str` or `int` in the Python dict). -/
inductive JVal
  | s (str : String)
  | n (nat : Nat)
deriving DecidableEq

/-- `PDFProcessor.extract_text_from_pdf`: join page texts with newlines and
strip; on `ImportError` or any reading error return a placeholder string. -/
def extract_text_from_pdf (outcome : PdfReadOutcome (List String)) : String :=
  match outcome with
  | .libAbsent => "[PDF text extraction requires PyPDF2]"
  | .failed msg => "[PDF text extraction failed: " ++ msg ++ "]"
  | .ok pages =>
    String.mk (pyStrip (pages.foldl (fun acc p => acc ++ p.toList ++ ['\n']) []))

/-- `metadata.get(key, "")` on the parsed metadata mapping. -/
def metaGet (meta : List (String × String)) (key : String) : String :=
  match meta.find? (fun e => e.1 = key) with
  | some e => e.2
  | none => ""

/-- `PDFProcessor.get_pdf_metadata`: project fixed keys out of the document
metadata plus the page count; on `ImportError` or any reading error return a
map holding only an `"error"` entry. -/
def get_pdf_metadata
    (outcome : PdfReadOutcome (List (String × String) × Nat)) :
    List (String × JVal) :=
  match outcome with
  | .libAbsent => [("error", .s "PyPDF2 not available")]
  | .failed msg => [("error", .s msg)]
  | .ok (meta, pages) =>
    [("title", .s (metaGet meta "/Title")),
     ("author", .s (metaGet meta "/Author")),
     ("subject", .s (metaGet meta "/Subject")),
     ("creator", .s (metaGet meta "/Creator")),
     ("pages", .n pages)]

/-! ## `ArxivPipeline` (`core/pipeline.py`)

`process_paper` is the per-item state machine.  Its result dict is modelled
as a structure whose `Option` fields record which keys are present.  The
effectful stages are driven by a `RunEnv` of outcomes; the pure stages are
the functions above applied directly. -/

structure ProcessingResult where
  arxiv_id : String
  success : Bool
  main_tex_file : Option String := none
  extracted_text : Option String := none
  file_count : Option Nat := none
  pdf_compiled : Option Bool := none
  pdf_text : Option String := none
  pdf_metadata : Option (List (String × JVal)) := none
  pdf_size : Option Nat := none
  pdf_error : Option String := none
  error : Option String := none
deriving DecidableEq

structure PipelineConfig where
  max_files_per_archive : Nat
  download_timeout : Nat
  compilation_timeout : Nat

/-- Outcomes of the effectful calls made by one `process_paper` run. -/
structure RunEnv where
  http : HttpOutcome
  compile1 : RunOutcome
  compile2 : RunOutcome
  artifact : Option (List Nat)
  pdfText : PdfReadOutcome (List String)
  pdfMeta : PdfReadOutcome (List (String × String) × Nat)

/-- The failure record produced by `process_paper`'s blanket
`except Exception` handler. -/
def failureResult (arxiv_id msg : String) : ProcessingResult :=
  { arxiv_id := arxiv_id, success := false, error := some msg }

/-- `ArxivPipeline.process_paper`: validate, download, extract, resolve the
main file, extract text; then optionally compile, where a compilation failure
is caught locally (`pdf_compiled = false`, `pdf_error` set) and does not fail
the run. -/
def process_paper (config : PipelineConfig) (arxiv_id : String)
    (include_pdf : Bool) (env : RunEnv) : ProcessingResult :=
  if !validate_arxiv_id arxiv_id then
    failureResult arxiv_id ("Invalid ArXiv ID format: " ++ arxiv_id)
  else
    match download arxiv_id env.http with
    | .error e => failureResult arxiv_id e
    | .ok source_content =>
      match extract_archive source_content config.max_files_per_archive with
      | .error e => failureResult arxiv_id e
      | .ok files =>
        match find_main_tex_file files with
        | none =>
          failureResult arxiv_id ("No main TeX file found in " ++ arxiv_id)
        | some main_tex_file =>
          let tex_content := decodeIgnore (dictGet files main_tex_file)
          let extracted_text := extract_text_from_tex tex_content
          let result : ProcessingResult :=
            { arxiv_id := arxiv_id, success := true,
              main_tex_file := some main_tex_file,
              extracted_text := some extracted_text,
              file_count := some files.length }
          if include_pdf then
            match (compile_latex config.compilation_timeout files main_tex_file
                ⟨env.compile1, env.compile2, env.artifact⟩).1 with
            | .ok pdf_content =>
              { result with
                pdf_compiled := some true,
                pdf_text := some (extract_text_from_pdf env.pdfText),
                pdf_metadata := some (get_pdf_metadata env.pdfMeta),
                pdf_size := some pdf_content.length }
            | .error e =>
              { result with pdf_compiled := some false, pdf_error := some e }
          else result

/-- `ArxivPipeline.process_multiple_papers`: one task per id via
`asyncio.gather(..., return_exceptions=True)`; a task that escaped with an
exception (`fault i = some msg`, e.g. cancellation — `process_paper` itself
returns on every path) is converted to a failure record for `arxiv_ids[i]`;
every other slot is that task's own result. -/
def process_multiple_papers (config : PipelineConfig)
    (arxiv_ids : List String) (include_pdf : Bool) (env : Nat → RunEnv)
    (fault : Nat → Option String) : List ProcessingResult :=
  (List.range arxiv_ids.length).map fun i =>
    match fault i with
    | some msg => failureResult (arxiv_ids.getD i "") msg
    | none => process_paper config (arxiv_ids.getD i "") include_pdf (env i)

/-! ## `AsyncArxivDownloader._rate_limit` (`clients/__init__.py`)

`_rate_limit` executes atomically on the event loop except at
`await asyncio.sleep(sleep_time)`: everything before the sleep (prune, length
check, sleep computation) is one atomic segment, and the append after the
sleep is another.  Concurrent callers — admitted by the `burst_size`
semaphore around `download` — interleave at exactly that point.  The model
splits one `_rate_limit` call into those two segments.  Times are rationals
(`asyncio` clock readings). -/

structure RateLimiterState where
  /-- `self.last_request_times`. -/
  times : List ℚ
  /-- Calls suspended in `asyncio.sleep`, in FIFO order:
  (the `current_time` the call read before sleeping, its wake time). -/
  pending : List (ℚ × ℚ)
deriving DecidableEq

/-- The segment of `_rate_limit` before the possible `await`, entered at
clock reading `now`: prune timestamps at most one second old; if the pruned
history has reached `requests_per_second`, compute the sleep from the oldest
kept timestamp and suspend, else append `now` and return at once.  (With
`requests_per_second ≤ 0` and an empty history the source would raise
`IndexError` on `self.last_request_times[0]`; `headD 0` leaves this edge
defined, and no theorem below relies on it.) -/
def rate_limit_enter (requests_per_second : ℚ) (now : ℚ)
    (st : RateLimiterState) : RateLimiterState :=
  let pruned := st.times.filter (fun t => t > now - 1)
  if (pruned.length : ℚ) ≥ requests_per_second then
    let sleep_time := 1 - (now - pruned.headD 0)
    if sleep_time > 0 then
      { times := pruned, pending := st.pending ++ [(now, now + sleep_time)] }
    else
      { times := pruned ++ [now], pending := st.pending }
  else
    { times := pruned ++ [now], pending := st.pending }

/-- The segment after the `await`: the woken call appends the `current_time`
it read *before* sleeping (no re-check, no re-prune) and returns.  Also
returns the resumed entry. -/
def rate_limit_resume (st : RateLimiterState) :
    RateLimiterState × Option (ℚ × ℚ) :=
  match st.pending with
  | [] => (st, none)
  | p :: rest => ({ times := st.times ++ [p.1], pending := rest }, some p)

inductive RateLimitEvent
  | call (now : ℚ)
  | wake

/-- Run an interleaving of `_rate_limit` segments from the empty state. -/
def rate_limit_trace (requests_per_second : ℚ) :
    List RateLimitEvent → RateLimiterState → RateLimiterState
  | [], st => st
  | .call now :: evs, st =>
    rate_limit_trace requests_per_second evs
      (rate_limit_enter requests_per_second now st)
  | .wake :: evs, st =>
    rate_limit_trace requests_per_second evs (rate_limit_resume st).1

/-- Number of recorded request timestamps inside the trailing one-second
window at clock reading `t`. -/
def windowCount (st : RateLimiterState) (t : ℚ) : Nat :=
  (st.times.filter (fun x => x > t - 1)).length

example :
    rate_limit_trace 1 [.call 0, .call (3/10), .call (1/2), .wake, .wake]
      ⟨[], []⟩ =
      ⟨[0, 3/10, 1/2], []⟩ := by
  norm_num [rate_limit_trace, rate_limit_enter, rate_limit_resume]
example :
    windowCount
      (rate_limit_trace 1 [.call 0, .call (3/10), .call (1/2), .wake, .wake]
        ⟨[], []⟩) 1 = 2 := by
  norm_num [rate_limit_trace, rate_limit_enter, rate_limit_resume, windowCount]

/-! ## Shape definitions written from the specification / claim wording

These are *second* definitions, phrased after the words of the spec and of
the claims, to be compared with the source-derived functions above. -/

/-- An optional version suffix `vN` (a `v` followed by at least one digit). -/
def VersionSuffix (v : List Char) : Prop :=
  v = [] ∨ ∃ ds, v = 'v' :: ds ∧ ds ≠ [] ∧ ∀ c ∈ ds, isDigitB c = true

/-- New-style identifier shape after stripping: four digits, a dot, four or
five digits, an optional version suffix. -/
def NewStyleShape (cs : List Char) : Prop :=
  ∃ y n v, cs = y ++ '.' :: (n ++ v) ∧ y.length = 4 ∧
    (∀ c ∈ y, isDigitB c = true) ∧ (n.length = 4 ∨ n.length = 5) ∧
    (∀ c ∈ n, isDigitB c = true) ∧ VersionSuffix v

/-- Subject-class shape: two nonempty word-character runs joined by at most
one single dot or hyphen. -/
def SubjectShape (sub : List Char) : Prop :=
  (2 ≤ sub.length ∧ ∀ c ∈ sub, isWordB c = true) ∨
  ∃ w1 sep w2, sub = w1 ++ sep :: w2 ∧ w1 ≠ [] ∧
    (∀ c ∈ w1, isWordB c = true) ∧ (sep = '-' ∨ sep = '.') ∧ w2 ≠ [] ∧
    (∀ c ∈ w2, isWordB c = true)

/-- Old-style identifier shape after stripping: a slash-free subject class,
`/`, seven digits, an optional version suffix. -/
def OldStyleShape (cs : List Char) : Prop :=
  ∃ sub d7 v, cs = sub ++ '/' :: (d7 ++ v) ∧ '/' ∉ sub ∧ SubjectShape sub ∧
    d7.length = 7 ∧ (∀ c ∈ d7, isDigitB c = true) ∧ VersionSuffix v

/-- Modelled from claim C6's literal wording `YYMM.NNNN[NN][vN]` applied to
the raw (unstripped) string, reading `[NN]` generously as up to two more
digits. -/
def claimNewShape (s : String) : Bool :=
  let cs := s.toList
  (cs.take 4).length = 4 && (cs.take 4).all isDigitB &&
    match cs.drop 4 with
    | [] => false
    | c :: rest =>
      c = '.' &&
        (let n := rest.takeWhile isDigitB
         (4 ≤ n.length && n.length ≤ 6) && vSuffix (rest.dropWhile isDigitB))

/-- Modelled from claim C6's literal wording `subject-class/YYMMnnn[vN]`
applied to the raw string, with a subject-class of word characters, dots and
hyphens. -/
def claimOldShape (s : String) : Bool :=
  match breakAtSlash s.toList with
  | none => false
  | some (sub, rest) =>
    !sub.isEmpty && sub.all (fun c => isWordB c || c = '-' || c = '.') &&
      sevenDigitsV rest

example : claimNewShape "2301.00001" = true := by decide
example : claimOldShape "math.GT/0601001v2" = true := by decide

/-! ## Helper lemmas -/

lemma isEmpty_false_of_ne {l : List Char} (h : l ≠ []) : l.isEmpty = false := by
  cases l with
  | nil => exact absurd rfl h
  | cons a t => rfl

lemma ne_of_isEmpty_false {l : List Char} (h : l.isEmpty = false) : l ≠ [] := by
  cases l with
  | nil => simp at h
  | cons a t => simp

lemma takeWhile_append_all {p : Char → Bool} :
    ∀ (a b : List Char), (∀ c ∈ a, p c = true) →
      (b = [] ∨ ∃ c t, b = c :: t ∧ p c = false) →
      (a ++ b).takeWhile p = a ∧ (a ++ b).dropWhile p = b
  | [], b, _, hb => by
    rcases hb with rfl | ⟨c, t, rfl, hc⟩
    · simp
    · simp [List.takeWhile_cons, List.dropWhile_cons, hc]
  | x :: a, b, ha, hb => by
    have hx : p x = true := ha x (by simp)
    have ih := takeWhile_append_all a b (fun c hc => ha c (by simp [hc])) hb
    simp [List.takeWhile_cons, List.dropWhile_cons, hx, ih.1, ih.2]

lemma breakAtSlash_some :
    ∀ (l a b : List Char), breakAtSlash l = some (a, b) →
      l = a ++ '/' :: b ∧ '/' ∉ a := by
  intro l
  induction l with
  | nil => intro a b h; simp [breakAtSlash] at h
  | cons c rest ih =>
    intro a b h
    rw [breakAtSlash] at h
    by_cases hc : c = '/'
    · rw [if_pos hc] at h
      obtain ⟨rfl, rfl⟩ := Prod.mk.injEq .. ▸ Option.some.inj h
      subst hc
      exact ⟨rfl, by simp⟩
    · rw [if_neg hc] at h
      cases hbr : breakAtSlash rest with
      | none => rw [hbr] at h; simp at h
      | some p =>
        rw [hbr] at h
        simp only [Option.map_some', Option.some.injEq] at h
        obtain ⟨h1, h2⟩ := Prod.mk.injEq .. ▸ h
        obtain ⟨hl, hni⟩ := ih p.1 p.2 (by rw [hbr])
        subst h1 h2
        refine ⟨by simp [hl], ?_⟩
        intro hmem
        rcases List.mem_cons.mp hmem with rfl | hmem2
        · exact hc rfl
        · exact hni hmem2

lemma breakAtSlash_append (b : List Char) :
    ∀ (a : List Char), '/' ∉ a → breakAtSlash (a ++ '/' :: b) = some (a, b)
  | [], _ => by simp [breakAtSlash]
  | x :: a, h => by
    have hx : ¬ x = '/' := fun e => h (by simp [e])
    have ih := breakAtSlash_append b a (fun hmem => h (by simp [hmem]))
    simp [breakAtSlash, hx, ih]

lemma vSuffix_iff (v : List Char) : vSuffix v = true ↔ VersionSuffix v := by
  cases v with
  | nil => simp [vSuffix, VersionSuffix]
  | cons c ds =>
    simp only [vSuffix, Bool.and_eq_true, decide_eq_true_eq, Bool.not_eq_true']
    constructor
    · rintro ⟨⟨rfl, hne⟩, hall⟩
      refine Or.inr ⟨ds, rfl, by simpa using hne, ?_⟩
      intro x hx
      exact List.all_eq_true.mp hall x hx
    · rintro (h | ⟨ds2, heq, hne, hall⟩)
      · exact absurd h (by simp)
      · obtain ⟨rfl, rfl⟩ : c = 'v' ∧ ds = ds2 := by
          constructor <;> injection heq
        exact ⟨⟨rfl, by simpa using hne⟩, List.all_eq_true.mpr hall⟩

lemma newStyleMatch_iff (cs : List Char) : newStyleMatch cs = true ↔ NewStyleShape cs := by
  constructor
  · intro h
    simp only [newStyleMatch] at h
    cases hd : cs.drop 4 with
    | nil => rw [hd] at h; simp at h
    | cons c rest =>
      rw [hd] at h
      simp only [Bool.and_eq_true, decide_eq_true_eq] at h
      obtain ⟨⟨h4, hall⟩, hc, hlen, hv⟩ := h
      subst hc
      refine ⟨cs.take 4, rest.takeWhile isDigitB, rest.dropWhile isDigitB,
        ?_, h4, ?_, by simpa using hlen, ?_, (vSuffix_iff _).mp hv⟩
      · rw [List.takeWhile_append_dropWhile, ← hd, List.take_append_drop]
      · intro x hx
        exact List.all_eq_true.mp hall x hx
      · intro x hx
        exact List.mem_takeWhile_imp hx
  · rintro ⟨y, n, v, rfl, hy4, hyd, hn, hnd, hv⟩
    have ht : (y ++ '.' :: (n ++ v)).take 4 = y := List.take_left' hy4
    have hdd : (y ++ '.' :: (n ++ v)).drop 4 = '.' :: (n ++ v) :=
      List.drop_left' hy4
    have hspan : (n ++ v).takeWhile isDigitB = n ∧ (n ++ v).dropWhile isDigitB = v := by
      refine takeWhile_append_all n v hnd ?_
      rcases hv with rfl | ⟨ds, rfl, _, _⟩
      · exact Or.inl rfl
      · exact Or.inr ⟨'v', ds, rfl, by decide⟩
    rcases hn with h | h <;>
      simp [newStyleMatch, ht, hdd, hspan.1, hspan.2, hy4, h,
        List.all_eq_true.mpr hyd, (vSuffix_iff v).mpr hv]

lemma sevenDigitsV_iff (cs : List Char) :
    sevenDigitsV cs = true ↔
      ∃ d7 v, cs = d7 ++ v ∧ d7.length = 7 ∧ (∀ c ∈ d7, isDigitB c = true) ∧
        VersionSuffix v := by
  constructor
  · intro h
    simp only [sevenDigitsV, Bool.and_eq_true, decide_eq_true_eq] at h
    obtain ⟨⟨h7, hall⟩, hv⟩ := h
    refine ⟨cs.take 7, cs.drop 7, (List.take_append_drop 7 cs).symm, h7, ?_,
      (vSuffix_iff _).mp hv⟩
    intro x hx
    exact List.all_eq_true.mp hall x hx
  · rintro ⟨d7, v, rfl, h7, hall, hv⟩
    have ht : (d7 ++ v).take 7 = d7 := List.take_left' h7
    have hdd : (d7 ++ v).drop 7 = v := List.drop_left' h7
    simp [sevenDigitsV, ht, hdd, h7, List.all_eq_true.mpr hall,
      (vSuffix_iff v).mpr hv]

lemma subjectMatch_iff (sub : List Char) :
    subjectMatch sub = true ↔ SubjectShape sub := by
  constructor
  · intro h
    simp only [subjectMatch] at h
    cases hd : sub.dropWhile isWordB with
    | nil =>
      rw [hd] at h
      simp only [Bool.and_eq_true, Bool.not_eq_true', decide_eq_true_eq] at h
      refine Or.inl ⟨h.2, ?_⟩
      intro c hc
      exact List.dropWhile_eq_nil_iff.mp hd c hc
    | cons sep rest2 =>
      rw [hd] at h
      simp only [Bool.and_eq_true, Bool.not_eq_true', decide_eq_true_eq,
        Bool.or_eq_true] at h
      obtain ⟨hw1, ⟨hsep, hne2⟩, hall2⟩ := h
      refine Or.inr ⟨sub.takeWhile isWordB, sep, rest2, ?_,
        ne_of_isEmpty_false hw1, ?_, hsep, ne_of_isEmpty_false hne2, ?_⟩
      · rw [← hd, List.takeWhile_append_dropWhile]
      · intro x hx
        exact List.mem_takeWhile_imp hx
      · intro x hx
        exact List.all_eq_true.mp hall2 x hx
  · rintro (⟨hlen, hall⟩ | ⟨w1, sep, w2, rfl, hne1, hall1, hsep, hne2, hall2⟩)
    · have ht : sub.takeWhile isWordB = sub := List.takeWhile_eq_self_iff.mpr hall
      have hdd : sub.dropWhile isWordB = [] := by
        rw [List.dropWhile_eq_nil_iff]
        exact hall
      have hne : sub ≠ [] := by
        intro e
        rw [e] at hlen
        simp at hlen
      simp [subjectMatch, ht, hdd, isEmpty_false_of_ne hne, hlen]
    · have hsepw : isWordB sep = false := by
        rcases hsep with rfl | rfl <;> decide
      have hspan := takeWhile_append_all w1 (sep :: w2) hall1
        (Or.inr ⟨sep, w2, rfl, hsepw⟩)
      rcases hsep with rfl | rfl <;>
        simp [subjectMatch, hspan.1, hspan.2, isEmpty_false_of_ne hne1,
          isEmpty_false_of_ne hne2, List.all_eq_true.mpr hall2]

lemma oldStyleMatch_iff (cs : List Char) :
    oldStyleMatch cs = true ↔ OldStyleShape cs := by
  constructor
  · intro h
    simp only [oldStyleMatch] at h
    cases hbr : breakAtSlash cs with
    | none => rw [hbr] at h; simp at h
    | some p =>
      rw [hbr] at h
      simp only [Bool.and_eq_true] at h
      obtain ⟨hsub, hsv⟩ := h
      obtain ⟨hl, hni⟩ := breakAtSlash_some cs p.1 p.2 (by rw [hbr])
      obtain ⟨d7, v, hrest, h7, hall, hv⟩ := (sevenDigitsV_iff p.2).mp hsv
      exact ⟨p.1, d7, v, by rw [hl, hrest], hni, (subjectMatch_iff p.1).mp hsub,
        h7, hall, hv⟩
  · rintro ⟨sub, d7, v, rfl, hni, hshape, h7, hall, hv⟩
    have hbr := breakAtSlash_append (d7 ++ v) sub hni
    simp only [oldStyleMatch, hbr, Bool.and_eq_true]
    refine ⟨(subjectMatch_iff sub).mpr hshape, ?_⟩
    exact (sevenDigitsV_iff (d7 ++ v)).mpr ⟨d7, v, rfl, h7, hall, hv⟩

lemma validate_arxiv_id_iff (s : String) :
    validate_arxiv_id s = true ↔
      NewStyleShape (pyStrip s.toList) ∨ OldStyleShape (pyStrip s.toList) := by
  simp only [validate_arxiv_id, Bool.or_eq_true, newStyleMatch_iff,
    oldStyleMatch_iff]

lemma dictInsert_append {acc : FileSet} {k : String} {v : List Nat}
    (h : ∀ kv ∈ acc, kv.1 ≠ k) : dictInsert acc k v = acc ++ [(k, v)] := by
  induction acc with
  | nil => rfl
  | cons kv rest ih =>
    obtain ⟨k0, v0⟩ := kv
    have hk : k0 ≠ k := h (k0, v0) (by simp)
    simp only [dictInsert, if_neg hk, List.cons_append, List.cons.injEq, true_and]
    exact ih (fun x hx => h x (by simp [hx]))

lemma find?_name_of_nodup :
    ∀ (l : List ZipEntry) (e : ZipEntry), (l.map ZipEntry.name).Nodup →
      e ∈ l → l.find? (fun x => x.name = e.name) = some e := by
  intro l
  induction l with
  | nil => intro e _ he; cases he
  | cons x rest ih =>
    intro e hnd he
    by_cases hx : x.name = e.name
    · rcases List.mem_cons.mp he with rfl | hmem
      · rw [List.find?_cons_of_pos]
        simp
      · exact absurd (hx ▸ List.mem_map_of_mem ZipEntry.name hmem)
          (List.nodup_cons.mp hnd).1
    · have hmem : e ∈ rest := by
        rcases List.mem_cons.mp he with rfl | hmem
        · exact absurd rfl hx
        · exact hmem
      rw [List.find?_cons_of_neg]
      · exact ih e (List.nodup_cons.mp hnd).2 hmem
      · simpa using hx

lemma zipRead_eq {entries : List ZipEntry}
    (hnd : (entries.map ZipEntry.name).Nodup) {e : ZipEntry}
    (he : e ∈ entries) : zipRead entries e.name = e.data := by
  have hnd2 : (entries.reverse.map ZipEntry.name).Nodup := by
    rw [List.map_reverse]
    exact List.nodup_reverse.mpr hnd
  have he2 : e ∈ entries.reverse := List.mem_reverse.mpr he
  rw [zipRead, find?_name_of_nodup entries.reverse e hnd2 he2]

lemma foldl_dict_eq {α : Type} (key : α → String) (keep : α → Bool)
    (val : α → List Nat) (step : FileSet → α → FileSet)
    (hstep : ∀ fs a, step fs a =
      if keep a then dictInsert fs (key a) (val a) else fs)
    (l : List α) :
    ∀ acc : FileSet, ((l.filter keep).map key).Nodup →
      (∀ a ∈ l, keep a = true → ∀ kv ∈ acc, kv.1 ≠ key a) →
      l.foldl step acc = acc ++ (l.filter keep).map (fun a => (key a, val a)) := by
  induction l with
  | nil => intro acc _ _; simp
  | cons e l ih =>
    intro acc hnd hfresh
    rw [List.foldl_cons, hstep]
    by_cases hk : keep e = true
    · rw [if_pos hk]
      have hf : (e :: l).filter keep = e :: l.filter keep := by
        rw [List.filter_cons, if_pos hk]
      rw [hf, List.map_cons] at hnd
      have hnd2 := List.nodup_cons.mp hnd
      have hins : dictInsert acc (key e) (val e) = acc ++ [(key e, val e)] :=
        dictInsert_append (hfresh e (by simp) hk)
      rw [hins, ih (acc ++ [(key e, val e)]) hnd2.2 ?fresh, hf]
      · simp
      case fresh =>
        intro x hx hxk kv hkv
        rcases List.mem_append.mp hkv with hkv1 | hkv2
        · exact hfresh x (by simp [hx]) hxk kv hkv1
        · have hkv3 : kv = (key e, val e) := by simpa using hkv2
          subst hkv3
          intro heq
          have heq2 : key e = key x := heq
          have hxf : x ∈ l.filter keep := List.mem_filter.mpr ⟨hx, hxk⟩
          exact hnd2.1 (by rw [heq2]; exact List.mem_map_of_mem key hxf)
    · rw [if_neg hk]
      have hf : (e :: l).filter keep = l.filter keep := by
        rw [List.filter_cons, if_neg hk]
      rw [hf] at hnd
      rw [ih acc hnd (fun x hx => hfresh x (by simp [hx])), hf]

/-- Modelled from claim C5's wording: rule (1) picks a file whose name *is*
(case-insensitively) one of the conventional names with the `.tex` extension;
rules (2)-(4) as in the claim. -/
def resolveByClaim (files : FileSet) : Option String :=
  let texFiles := (files.map Prod.fst).filter (fun n => strEndsWith ".tex" n)
  match mainPatterns.findSome?
      (fun p => texFiles.find? (fun f => lowerStr f = p)) with
  | some f => some f
  | none =>
    match texFiles.find? (fun f =>
        listHasInfix "\\documentclass".toList (utf8Ignore (dictGet files f))) with
    | some f => some f
    | none => texFiles.head?

/-- The amended claim's resolver: for the first conventional name (in the
order main, paper, manuscript, article) such that some `.tex` file's
lowercased name *ends with* it, the first such file in FileSet order; then
the first `.tex` file whose decoded content contains the document-class
marker; then the first `.tex` file; `none` when no `.tex` file exists. -/
def resolveByAmendedClaim (files : FileSet) : Option String :=
  let texFiles := (files.map Prod.fst).filter (fun n => strEndsWith ".tex" n)
  match mainPatterns.find?
      (fun p => texFiles.any (fun f => strEndsWith p (lowerStr f))) with
  | some p => texFiles.find? (fun f => strEndsWith p (lowerStr f))
  | none =>
    match texFiles.find? (fun f =>
        listHasInfix "\\documentclass".toList (utf8Ignore (dictGet files f))) with
    | some f => some f
    | none => texFiles.head?

lemma findSome?_rule1 (m : String → String → Bool) (ts : List String)
    (rest : Option String) :
    ∀ pats : List String,
      (match pats.findSome? (fun p => ts.find? (m p)) with
       | some f => some f
       | none => rest) =
      (match pats.find? (fun p => ts.any (m p)) with
       | some p => ts.find? (m p)
       | none => rest) := by
  intro pats
  induction pats with
  | nil => simp
  | cons p pats ih =>
    cases hf : ts.find? (m p) with
    | some f =>
      have hany : ts.any (m p) = true := by
        simp only [List.any_eq_true]
        exact ⟨f, List.mem_of_find?_eq_some hf, List.find?_some hf⟩
      have hrw : List.find? (fun q => ts.any (m q)) (p :: pats) = some p :=
        List.find?_cons_of_pos pats (by simp [hany])
      rw [List.findSome?_cons, hf, hrw]
      exact hf.symm
    | none =>
      have hany : ts.any (m p) = false := by
        rw [Bool.eq_false_iff]
        intro hx
        obtain ⟨x, hmem, hmx⟩ := List.any_eq_true.mp hx
        exact (List.find?_eq_none.mp hf x hmem) hmx
      have hrw : List.find? (fun q => ts.any (m q)) (p :: pats) =
          List.find? (fun q => ts.any (m q)) pats :=
        List.find?_cons_of_neg pats (by simp [hany])
      rw [List.findSome?_cons, hf, hrw]
      exact ih

/-! ## Claim theorems -/

/-- ASCII text as a byte string. -/
def asciiBytes (s : String) : List Nat := s.toList.map Char.toNat

lemma process_paper_arxiv_id (config : PipelineConfig) (arxiv_id : String)
    (include_pdf : Bool) (env : RunEnv) :
    (process_paper config arxiv_id include_pdf env).arxiv_id = arxiv_id := by
  unfold process_paper failureResult
  repeat' split
  all_goals rfl

/-- **C1.**  The claim asserts a mandatory path-traversal guard: an archive
member whose path would resolve outside the extraction root must make
extraction fail with `ExtractionError`.  Evaluating `extract_archive` on a
zip and on a tar archive whose only member is named `../evil.tex` shows that
no such guard exists in either container branch: extraction succeeds and the
traversal member is returned in the FileSet (and `compile_latex` would later
write it outside its temporary directory).  The helper
`ArxivValidator.validate_archive_member` exists in the source but has no
caller. -/
theorem C1_no_traversal_guard :
    extract_archive (.zip [⟨"../evil.tex", [42]⟩]) 1000 =
      .ok [("../evil.tex", [42])] ∧
    extract_archive (.tar [⟨"../evil.tex", .regular, [42]⟩]) 1000 =
      .ok [("../evil.tex", [42])] := ⟨rfl, rfl⟩

/-- **C4, counterexample.**  A zip archive with one directory entry and two
file entries: with `maxFiles = 2` there are 2 ≤ 2 non-directory members, yet
extraction fails, because the source compares the *total* member count
(directory entries included) against the limit. -/
theorem C4_counterexample :
    (([⟨"d/", []⟩, ⟨"a.tex", [1]⟩, ⟨"b.tex", [2]⟩] : List ZipEntry).filter
        (fun e => !strEndsWith "/" e.name)).length ≤ 2 ∧
    ∃ msg, extract_archive (.zip [⟨"d/", []⟩, ⟨"a.tex", [1]⟩, ⟨"b.tex", [2]⟩]) 2
      = .error msg :=
  ⟨by decide, ⟨_, rfl⟩⟩

/-- **C4 (amended).**  For an archive with pairwise-distinct member names
whose *total* member count (directory entries included) is at most
`maxFiles`, extraction succeeds and returns exactly one entry per
non-directory member (for tar: per regular-file member), in member order,
with byte-for-byte identical content. -/
theorem C4_extraction_count (entries : List ZipEntry)
    (members : List TarMember) (max_files : Nat) :
    ((entries.map ZipEntry.name).Nodup → entries.length ≤ max_files →
      extract_archive (.zip entries) max_files =
        .ok ((entries.filter (fun e => !strEndsWith "/" e.name)).map
          (fun e => (e.name, e.data)))) ∧
    ((members.map TarMember.name).Nodup → members.length ≤ max_files →
      extract_archive (.tar members) max_files =
        .ok ((members.filter (fun m => decide (m.kind = TarKind.regular))).map
          (fun m => (m.name, m.data)))) := by
  constructor
  · intro hnd hle
    simp only [extract_archive]
    rw [if_neg (by omega)]
    have hndf : ((entries.filter (fun e => !strEndsWith "/" e.name)).map
        ZipEntry.name).Nodup :=
      hnd.sublist ((List.filter_sublist entries).map ZipEntry.name)
    have heq := foldl_dict_eq ZipEntry.name (fun e => !strEndsWith "/" e.name)
      (fun e => zipRead entries e.name)
      (fun files e => if strEndsWith "/" e.name then files
        else dictInsert files e.name (zipRead entries e.name))
      (by intro fs a; cases h : strEndsWith "/" a.name <;> simp [h])
      entries [] hndf (by intro a _ _ kv hkv; cases hkv)
    rw [heq, List.nil_append]
    refine congrArg Except.ok (List.map_congr_left ?_)
    intro e he
    have hmem : e ∈ entries := (List.mem_filter.mp he).1
    simp [zipRead_eq hnd hmem]
  · intro hnd hle
    simp only [extract_archive]
    rw [if_neg (by omega)]
    have hndf : ((members.filter (fun m => decide (m.kind = TarKind.regular))).map
        TarMember.name).Nodup :=
      hnd.sublist ((List.filter_sublist members).map TarMember.name)
    have heq := foldl_dict_eq TarMember.name
      (fun m => decide (m.kind = TarKind.regular)) TarMember.data
      (fun files m => if m.kind = TarKind.regular
        then dictInsert files m.name m.data else files)
      (by intro fs a; by_cases h : a.kind = TarKind.regular <;> simp [h])
      members [] hndf (by intro a _ _ kv hkv; cases hkv)
    rw [heq, List.nil_append]

/-- **C4 witness.** -/
theorem C4_extraction_count_witness :
    extract_archive (.zip [⟨"a.tex", [1]⟩, ⟨"d/", [0]⟩]) 5 =
      .ok [("a.tex", [1])] ∧
    extract_archive (.tar [⟨"b", .regular, [2]⟩, ⟨"s", .other, []⟩]) 5 =
      .ok [("b", [2])] := by
  have h := C4_extraction_count [⟨"a.tex", [1]⟩, ⟨"d/", [0]⟩]
    [⟨"b", .regular, [2]⟩, ⟨"s", .other, []⟩] 5
  exact ⟨(h.1 (by decide) (by decide)).trans rfl,
    (h.2 (by decide) (by decide)).trans rfl⟩

/-- The FileSet of C5's counterexample: `domain.tex` is *not* named by any
conventional name, but its name ends in `main.tex`; `other.tex` holds the
document-class marker. -/
def c5Files : FileSet :=
  [("domain.tex", [120]), ("other.tex", asciiBytes "\\documentclass{a}")]

/-- **C5, counterexample.**  By the claim's rule (1) — a case-insensitive
match *of* a conventional name — no file of `c5Files` matches, so its rule
(2) picks `other.tex` (which contains the document-class marker); but the
source applies `re.search(r"main\.tex$", ...)`, a *suffix* match, and so
returns `domain.tex`. -/
theorem C5_counterexample :
    find_main_tex_file c5Files = some "domain.tex" ∧
    resolveByClaim c5Files = some "other.tex" := ⟨by decide, by decide⟩

/-- **C5 (amended).**  `find_main_tex_file` implements the amended priority:
(1) for the first conventional name (order: main, paper, manuscript,
article) that some `.tex` file's lowercased name *ends with*, the first such
file in FileSet order; (2) else the first `.tex` file whose decoded content
contains the document-class marker (decoding ignores invalid bytes, so no
file can fail to decode and none is skipped, and resolve never raises);
(3) else the first `.tex` file; (4) `none` when no `.tex` file exists. -/
theorem C5_resolver_matches_amended (files : FileSet) :
    find_main_tex_file files = resolveByAmendedClaim files := by
  simp only [find_main_tex_file, resolveByAmendedClaim]
  rw [findSome?_rule1]
  by_cases hE : ((files.map Prod.fst).filter (fun n => strEndsWith ".tex" n)).isEmpty
  · have hnil : (files.map Prod.fst).filter (fun n => strEndsWith ".tex" n) = [] := by
      cases h : (files.map Prod.fst).filter (fun n => strEndsWith ".tex" n) with
      | nil => rfl
      | cons a l => rw [h] at hE; simp at hE
    rw [if_pos hE, hnil]
    rfl
  · rw [if_neg hE]

/-- **C7, counterexample.**  Status 201 is a 2xx success status, but the
source tests `response.status == 200`, so the download fails. -/
theorem C7_counterexample :
    200 ≤ 201 ∧ 201 < 300 ∧
    download "2301.00001" (.response 201 (.zip [])) =
      .error
        "Download failed for 2301.00001: Failed to download 2301.00001: HTTP 201" :=
  ⟨by decide, by decide, rfl⟩

/-- **C7 (amended).**  `download` returns the body exactly when the status is
200; any other status, a connection failure, or an elapsed timeout yields a
download error. -/
theorem C7_download_only_200 (arxiv_id msg : String) (status : Nat)
    (body : Blob) :
    (download arxiv_id (.response 200 body) = .ok body) ∧
    (status ≠ 200 → ∃ e, download arxiv_id (.response status body) = .error e) ∧
    (∃ e, download arxiv_id (.connectionError msg) = .error e) ∧
    (∃ e, download arxiv_id .timedOut = .error e) := by
  refine ⟨by simp [download], ?_, ⟨_, rfl⟩, ⟨_, rfl⟩⟩
  intro h
  refine ⟨"Download failed for " ++ arxiv_id ++ ": Failed to download "
    ++ arxiv_id ++ ": HTTP " ++ toString status, ?_⟩
  simp [download, h]

/-- **C7 witness.** -/
theorem C7_download_only_200_witness :
    download "2301.00001" (.response 200 (.zip [])) = .ok (.zip []) ∧
    (∃ e, download "2301.00001" (.response 404 (.zip [])) = .error e) := by
  have h := C7_download_only_200 "2301.00001" "connection refused" 404 (.zip [])
  exact ⟨h.1, h.2.1 (by decide)⟩

/-- Outcomes for C2's counterexample run: the zip holds a single *empty*
`main.tex`, the two compiler passes exit 0, but no PDF artifact appears. -/
def c2Env : RunEnv :=
  { http := .response 200 (.zip [⟨"main.tex", []⟩]),
    compile1 := .completed 0 "", compile2 := .completed 0 "",
    artifact := none, pdfText := .libAbsent, pdfMeta := .libAbsent }

/-- **C2, counterexample.**  In this run download, extraction, main-file
resolution and text extraction all succeed and compilation fails; as claimed,
`success = true` and `pdf_compiled = false` with the error recorded in the
separate `pdf_error` field — but `extracted_text` is the *empty* string (the
main file is empty), refuting the claim's "non-empty extractedText". -/
theorem C2_counterexample :
    (process_paper ⟨1000, 60, 300⟩ "2301.00001" true c2Env).success = true ∧
    (process_paper ⟨1000, 60, 300⟩ "2301.00001" true c2Env).pdf_compiled =
      some false ∧
    (process_paper ⟨1000, 60, 300⟩ "2301.00001" true c2Env).pdf_error =
      some "PDF file was not generated" ∧
    (process_paper ⟨1000, 60, 300⟩ "2301.00001" true c2Env).extracted_text =
      some "" :=
  ⟨by decide, by decide, by decide, by decide⟩

/-- **C2 (amended).**  When validation, download, extraction and main-file
resolution succeed and the compilation stage fails, the run still yields
`success = true`, the `extracted_text` produced by text extraction (possibly
empty), `pdf_compiled = false`, and the compilation error recorded in the
separate `pdf_error` field of the same result. -/
theorem C2_compile_failure_isolated (config : PipelineConfig)
    (arxiv_id : String) (env : RunEnv) (blob : Blob) (files : FileSet)
    (main_file e : String)
    (h1 : validate_arxiv_id arxiv_id = true)
    (h2 : download arxiv_id env.http = .ok blob)
    (h3 : extract_archive blob config.max_files_per_archive = .ok files)
    (h4 : find_main_tex_file files = some main_file)
    (h5 : (compile_latex config.compilation_timeout files main_file
      ⟨env.compile1, env.compile2, env.artifact⟩).1 = .error e) :
    process_paper config arxiv_id true env =
      { arxiv_id := arxiv_id, success := true,
        main_tex_file := some main_file,
        extracted_text :=
          some (extract_text_from_tex (decodeIgnore (dictGet files main_file))),
        file_count := some files.length,
        pdf_compiled := some false, pdf_error := some e } := by
  simp [process_paper, h1, h2, h3, h4, h5]

/-- **C2 witness.** -/
theorem C2_compile_failure_isolated_witness :
    process_paper ⟨1000, 60, 300⟩ "2301.00001" true c2Env =
      { arxiv_id := "2301.00001", success := true,
        main_tex_file := some "main.tex", extracted_text := some "",
        file_count := some 1, pdf_compiled := some false,
        pdf_error := some "PDF file was not generated" } := by
  have h := C2_compile_failure_isolated ⟨1000, 60, 300⟩ "2301.00001" c2Env
    (.zip [⟨"main.tex", []⟩]) [("main.tex", [])] "main.tex"
    "PDF file was not generated" (by decide) rfl rfl (by decide) rfl
  exact h.trans (by decide)

/-- **C3.**  The batch operation is a total function (nothing is raised) and
returns exactly one result per input id in input order: slot `i` holds the
failure record for `arxiv_ids[i]` when that task escaped with an exception
(`fault i`), else that task's own `process_paper` result; a slot depends only
on its own id, environment and fault, never on sibling items, and its
`arxiv_id` field is the input id. -/
theorem C3_batch_isolation (config : PipelineConfig) (arxiv_ids : List String)
    (include_pdf : Bool) (env : Nat → RunEnv) (fault : Nat → Option String) :
    (process_multiple_papers config arxiv_ids include_pdf env fault).length =
      arxiv_ids.length ∧
    ∀ i, i < arxiv_ids.length →
      ((process_multiple_papers config arxiv_ids include_pdf env fault).getD i
          (failureResult "" "") =
        match fault i with
        | some msg => failureResult (arxiv_ids.getD i "") msg
        | none =>
          process_paper config (arxiv_ids.getD i "") include_pdf (env i)) ∧
      ((process_multiple_papers config arxiv_ids include_pdf env fault).getD i
          (failureResult "" "")).arxiv_id = arxiv_ids.getD i "" := by
  constructor
  · simp [process_multiple_papers]
  · intro i hi
    have hslot :
        (process_multiple_papers config arxiv_ids include_pdf env fault).getD i
          (failureResult "" "") =
        match fault i with
        | some msg => failureResult (arxiv_ids.getD i "") msg
        | none =>
          process_paper config (arxiv_ids.getD i "") include_pdf (env i) := by
      rw [process_multiple_papers, List.getD_eq_getElem?_getD,
        List.getElem?_map, List.getElem?_range hi]
      rfl
    refine ⟨hslot, ?_⟩
    rw [hslot]
    cases fault i with
    | some msg => rfl
    | none =>
      exact process_paper_arxiv_id config (arxiv_ids.getD i "") include_pdf
        (env i)

/-- **C3 witness.** -/
theorem C3_batch_isolation_witness :
    (process_multiple_papers ⟨1000, 60, 300⟩ ["2301.00001", "not an id"] true
      (fun _ => c2Env)
      (fun i => if i = 1 then some "task cancelled" else none)).length = 2 ∧
    ((process_multiple_papers ⟨1000, 60, 300⟩ ["2301.00001", "not an id"] true
      (fun _ => c2Env)
      (fun i => if i = 1 then some "task cancelled" else none)).getD 1
        (failureResult "" "")).arxiv_id = "not an id" := by
  have h := C3_batch_isolation ⟨1000, 60, 300⟩ ["2301.00001", "not an id"] true
    (fun _ => c2Env) (fun i => if i = 1 then some "task cancelled" else none)
  exact ⟨h.1.trans rfl, ((h.2 1 (by decide)).2).trans rfl⟩

/-- **C6, counterexample.**  The string `" 2301.00001"` (leading space) is
accepted by the validator — `.strip()` runs before matching — although it has
neither of the two claimed shapes, refuting "every other string is
rejected". -/
theorem C6_counterexample :
    validate_arxiv_id " 2301.00001" = true ∧
    claimNewShape " 2301.00001" = false ∧
    claimOldShape " 2301.00001" = false := ⟨by decide, by decide, by decide⟩

/-- **C6 (amended).**  (i) The validator accepts exactly the strings whose
*stripped* form is the new-style shape (four digits, dot, four or five
digits, optional version suffix) or the old-style shape (subject class made
of two word-character runs joined by at most one single dot or hyphen, slash,
seven digits, optional version suffix).  (ii) Rejection short-circuits before
any I/O or resource acquisition: for an invalid id, `process_paper` returns
the validation failure record whatever the stage outcomes in `env` are. -/
theorem C6_validator_shape (s : String) (config : PipelineConfig)
    (arxiv_id : String) (include_pdf : Bool) (env : RunEnv) :
    (validate_arxiv_id s = true ↔
      NewStyleShape (pyStrip s.toList) ∨ OldStyleShape (pyStrip s.toList)) ∧
    (validate_arxiv_id arxiv_id = false →
      process_paper config arxiv_id include_pdf env =
        failureResult arxiv_id ("Invalid ArXiv ID format: " ++ arxiv_id)) := by
  refine ⟨validate_arxiv_id_iff s, ?_⟩
  intro h
  simp [process_paper, h]

/-- **C6 witness.** -/
theorem C6_validator_shape_witness :
    (validate_arxiv_id "2301.00001" = true ↔
      NewStyleShape (pyStrip "2301.00001".toList) ∨
        OldStyleShape (pyStrip "2301.00001".toList)) ∧
    process_paper ⟨1000, 60, 300⟩ "bogus" true c2Env =
      failureResult "bogus" "Invalid ArXiv ID format: bogus" := by
  have h := C6_validator_shape "2301.00001" ⟨1000, 60, 300⟩ "bogus" true c2Env
  exact ⟨h.1, h.2 (by decide)⟩

/-- **C8.**  With `requests_per_second = 1` (and `burst_size ≥ 3` admitting
the callers), tasks call `_rate_limit` at times 0, 3/10 and 1/2.  The first
appends its timestamp at once; the other two both pass the length check
before sleeping and are both recorded to wake at time 1; on waking, each
appends the stale timestamp it read before sleeping, without re-checking.
After the second wake — a completed throttle wait at clock 1 — the trailing
one-second window holds 2 > 1 recorded timestamps: the claimed invariant is
violated by the code. -/
theorem C8_rate_window_violated :
    (rate_limit_trace 1 [.call 0, .call (3/10), .call (1/2)] ⟨[], []⟩).pending
      = [(3/10, 1), (1/2, 1)] ∧
    windowCount
      (rate_limit_trace 1 [.call 0, .call (3/10), .call (1/2), .wake, .wake]
        ⟨[], []⟩) 1 = 2 ∧
    (1 : Nat) < 2 := by
  refine ⟨?_, ?_, by norm_num⟩ <;>
    norm_num [rate_limit_trace, rate_limit_enter, rate_limit_resume,
      windowCount]

/-- **C9, counterexample.**  When the first invocation times out, the binary
is invoked only once, refuting "invokes the external typesetting binary
exactly twice". -/
theorem C9_counterexample :
    (compile_latex 300 [] "main.tex"
      ⟨.timedOut, .completed 0 "", some [37]⟩).2 = 1 ∧ (1 : Nat) ≠ 2 :=
  ⟨rfl, by decide⟩

/-- **C9 (amended).**  `compile_latex` invokes the binary at most twice, and
exactly twice whenever the first invocation neither times out nor fails to
start; a non-zero exit of the first invocation alone never causes failure;
and a compilation error is raised exactly when some invocation times out or
fails to start, when the second invocation exits non-zero, or when the
expected artifact is absent afterwards. -/
theorem C9_two_pass_compile (t : Nat) (files : FileSet) (main_file : String)
    (env : CompileEnv) :
    ((compile_latex t files main_file env).2 ≤ 2) ∧
    (env.run1 ≠ .timedOut → env.run1 ≠ .binaryMissing →
      (compile_latex t files main_file env).2 = 2) ∧
    (∀ c1 s1 s2 pdf, env.run1 = .completed c1 s1 →
      env.run2 = .completed 0 s2 → env.artifact = some pdf →
      (compile_latex t files main_file env).1 = .ok pdf) ∧
    ((∃ e, (compile_latex t files main_file env).1 = .error e) ↔
      (env.run1 = .timedOut ∨ env.run1 = .binaryMissing ∨
       env.run2 = .timedOut ∨ env.run2 = .binaryMissing ∨
       (∃ c s, env.run2 = .completed c s ∧ c ≠ 0) ∨
       env.artifact = none)) := by
  obtain ⟨r1, r2, art⟩ := env
  cases r1 with
  | timedOut => simp [compile_latex]
  | binaryMissing => simp [compile_latex]
  | completed c1 s1 =>
    cases r2 with
    | timedOut => simp [compile_latex]
    | binaryMissing => simp [compile_latex]
    | completed c2 s2 =>
      by_cases hc : c2 = 0
      · subst hc
        cases art with
        | none => simp [compile_latex]
        | some pdf => simp [compile_latex]
      · cases art with
        | none => simp [compile_latex, hc]
        | some pdf => simp [compile_latex, hc]

/-- **C9 witness.** -/
theorem C9_two_pass_compile_witness :
    (compile_latex 300 [] "main.tex"
      ⟨.completed 1 "err", .completed 0 "", some [9]⟩).2 = 2 ∧
    (compile_latex 300 [] "main.tex"
      ⟨.completed 1 "err", .completed 0 "", some [9]⟩).1 = .ok [9] := by
  have h := C9_two_pass_compile 300 [] "main.tex"
    ⟨.completed 1 "err", .completed 0 "", some [9]⟩
  exact ⟨h.2.1 (by decide) (by decide), h.2.2.1 1 "err" "" [9] rfl rfl rfl⟩

/-- **C10.**  The PDF reader is total (modelled as total functions: nothing
is raised on any outcome); a missing backing library and a failed read are
converted into placeholder text, and into a metadata map bearing an `"error"`
entry, while a successful read yields a map without an `"error"` entry. -/
theorem C10_pdf_reader_degrades (msg : String)
    (o : PdfReadOutcome (List (String × String) × Nat)) :
    (extract_text_from_pdf .libAbsent =
      "[PDF text extraction requires PyPDF2]") ∧
    (extract_text_from_pdf (.failed msg) =
      "[PDF text extraction failed: " ++ msg ++ "]") ∧
    (get_pdf_metadata .libAbsent = [("error", .s "PyPDF2 not available")]) ∧
    (get_pdf_metadata (.failed msg) = [("error", .s msg)]) ∧
    (∀ v, o = .ok v →
      (get_pdf_metadata o).find? (fun e => e.1 = "error") = none) ∧
    ((o = .libAbsent ∨ o = .failed msg) →
      ∃ jv, (get_pdf_metadata o).find? (fun e => e.1 = "error") =
        some ("error", jv)) := by
  refine ⟨rfl, rfl, rfl, rfl, ?_, ?_⟩
  · rintro ⟨meta, pages⟩ rfl
    rfl
  · rintro (rfl | rfl)
    · exact ⟨_, rfl⟩
    · exact ⟨_, rfl⟩

/-- **C10 witness.** -/
theorem C10_pdf_reader_degrades_witness :
    extract_text_from_pdf (.failed "bad xref") =
      "[PDF text extraction failed: bad xref]" ∧
    (get_pdf_metadata (.ok ([("/Title", "T")], 3))).find?
      (fun e => e.1 = "error") = none ∧
    ∃ jv, (get_pdf_metadata
        (.libAbsent : PdfReadOutcome (List (String × String) × Nat))).find?
        (fun e => e.1 = "error") = some ("error", jv) := by
  have h1 := C10_pdf_reader_degrades "bad xref" (.ok ([("/Title", "T")], 3))
  have h2 := C10_pdf_reader_degrades "bad xref"
    (.libAbsent : PdfReadOutcome (List (String × String) × Nat))
  exact ⟨h1.2.1, h1.2.2.2.2.1 ([("/Title", "T")], 3) rfl,
    h2.2.2.2.2.2 (Or.inl rfl)⟩
